import Mathlib

/-!
Shallow embedding of `sim/src/pandemic.rs` (the pandemic model of the
A/B Street simulation): shared-space occupancy ledgers, the stochastic
transmission rule, and the hospitalization scheduling, together with
proofs of the specified properties.

Machine reals (`geom::Time`, `geom::Duration`, both counted in seconds)
are modelled as integers; the seeded `XorShiftRng` is modelled as an
abstract stream of raw draws advanced by one on every stochastic call
(`gen_bool(0.1)` succeeds on one residue out of ten, `gen_range(low, high)`
maps a raw draw into `[low, high)`).  Panics (`assert!` failures and
`Option::unwrap` on `None`) are modelled by an `Except` error, tagged by
which kind of panic fired.
-/

namespace Pandemic

/-- `PersonID` (an opaque identity; only equality/ordering is used). -/
abbrev PersonID := Nat

/-- `BuildingID`. -/
abbrev BuildingID := Nat

/-- `BusStopID`. -/
abbrev BusStopID := Nat

/-- `CarID` (a bus). -/
abbrev CarID := Nat

/-- `geom::Time`, in seconds since `Time::START_OF_DAY` (modelled as `ℤ`). -/
abbrev Time := Int

/-- `geom::Duration`, in seconds (modelled as `ℤ`). -/
abbrev Duration := Int

/-- `Duration::hours(x)`: `3600 * x` seconds. -/
def Duration.hours (x : Int) : Duration := 3600 * x

/-- `Time::START_OF_DAY`. -/
def START_OF_DAY : Time := 0

/-- The seeded `XorShiftRng`: an abstract stream `seq` of raw pseudorandom
draws and the index of the next draw.  Every stochastic call consumes
exactly one draw. -/
structure Rng where
  seq : Nat → Nat
  idx : Nat

/-- `rng.gen_bool(0.1)`: succeeds on one residue class out of ten of the
next raw draw, and advances the stream. -/
def Rng.genBool10 (r : Rng) : Bool × Rng :=
  (r.seq r.idx % 10 == 0, ⟨r.seq, r.idx + 1⟩)

/-- `rng.gen_range(low, high)` for `low < high`: maps the next raw draw
into `[low, high)` and advances the stream. -/
def Rng.genRange (r : Rng) (low high : Int) : Int × Rng :=
  (low + (r.seq r.idx : Int) % (high - low), ⟨r.seq, r.idx + 1⟩)

/-- Which kind of panic aborted the run: an `assert!` failure, or an
`Option::unwrap` on `None`. -/
inductive PanicKind where
  | assertFail
  | unwrapFail
deriving DecidableEq

/-- `SharedSpace<T>`: per space key, the ordered list of `(person, entry
time)` pairs.  `occupants` is total with default `[]`, which matches the
`BTreeMap` accessed only through `entry(space).or_insert_with(Vec::new)`. -/
structure SharedSpace (T : Type) where
  occupants : T → List (PersonID × Time)

/-- `SharedSpace::new()`. -/
def SharedSpace.new (T : Type) : SharedSpace T := ⟨fun _ => []⟩

/-- `SharedSpace::person_enters_space`: append `(person, now)` to the
space's record. -/
def SharedSpace.person_enters_space {T : Type} [DecidableEq T]
    (ss : SharedSpace T) (now : Time) (person : PersonID) (space : T) :
    SharedSpace T :=
  ⟨fun s => if s = space then ss.occupants s ++ [(person, now)]
            else ss.occupants s⟩

/-- The `occupants.retain(...)` loop of `person_leaves_space`: traverse the
list front to back, drop every entry of `person`, and record in the
accumulator (the `inside_since` mutable) the entry time of the last
matching entry seen. -/
def retainLeave (person : PersonID) :
    List (PersonID × Time) → Option Time → List (PersonID × Time) × Option Time
  | [], acc => ([], acc)
  | (p, t) :: rest, acc =>
    if p = person then retainLeave person rest (some t)
    else
      let r := retainLeave person rest acc
      ((p, t) :: r.1, r.2)

/-- `SharedSpace::person_leaves_space`: remove the person's entries; if no
entry was recorded return `none` (the record still rewritten, a no-op);
otherwise return one `(other, now - max(other.entryTime, inside_since))`
pair per remaining occupant, in ledger order. -/
def SharedSpace.person_leaves_space {T : Type} [DecidableEq T]
    (ss : SharedSpace T) (now : Time) (person : PersonID) (space : T) :
    Option (List (PersonID × Duration)) × SharedSpace T :=
  let r := retainLeave person (ss.occupants space) none
  let ss' : SharedSpace T :=
    ⟨fun s => if s = space then r.1 else ss.occupants s⟩
  match r.2 with
  | none => (none, ss')
  | some inside_since =>
    (some (r.1.map fun pt => (pt.1, now - max pt.2 inside_since)), ss')

/-- The final value of the `inside_since` mutable: the entry time of the
last entry of `person` in the list, else the initial accumulator. -/
def lastEntryTime (person : PersonID)
    (l : List (PersonID × Time)) (acc : Option Time) : Option Time :=
  l.foldl (fun a pt => if pt.1 = person then some pt.2 else a) acc

theorem lastEntryTime_cons (person : PersonID) (pt : PersonID × Time)
    (rest : List (PersonID × Time)) (acc : Option Time) :
    lastEntryTime person (pt :: rest) acc =
      lastEntryTime person rest (if pt.1 = person then some pt.2 else acc) := rfl

theorem retainLeave_eq (person : PersonID) (l : List (PersonID × Time))
    (acc : Option Time) :
    retainLeave person l acc =
      (l.filter (fun pt => !(pt.1 == person)), lastEntryTime person l acc) := by
  induction l generalizing acc with
  | nil => rfl
  | cons pt rest ih =>
    obtain ⟨p, t⟩ := pt
    rw [lastEntryTime_cons, List.filter_cons]
    by_cases h : p = person
    · simp only [retainLeave, if_pos h, ih]
      simp [h]
    · simp only [retainLeave, if_neg h, ih]
      simp [h]

theorem lastEntryTime_of_not_mem (person : PersonID)
    (l : List (PersonID × Time)) (acc : Option Time)
    (h : ∀ pt ∈ l, pt.1 ≠ person) :
    lastEntryTime person l acc = acc := by
  induction l generalizing acc with
  | nil => rfl
  | cons pt rest ih =>
    have hpt : pt.1 ≠ person := h pt (List.mem_cons_self _ _)
    simp only [lastEntryTime, List.foldl, hpt, if_neg hpt]
    exact ih acc fun q hq => h q (List.mem_cons_of_mem _ hq)

theorem lastEntryTime_eq_none_iff_aux (person : PersonID) :
    ∀ (l : List (PersonID × Time)) (acc : Option Time),
      lastEntryTime person l acc = none ↔
        (acc = none ∧ ∀ pt ∈ l, pt.1 ≠ person) := by
  intro l
  induction l with
  | nil => intro acc; simp [lastEntryTime]
  | cons pt rest ih =>
    intro acc
    rw [lastEntryTime_cons, ih]
    by_cases h : pt.1 = person
    · simp [h, List.forall_mem_cons]
    · simp [h, List.forall_mem_cons]

theorem lastEntryTime_eq_none_iff (person : PersonID)
    (l : List (PersonID × Time)) :
    lastEntryTime person l none = none ↔ ∀ pt ∈ l, pt.1 ≠ person := by
  rw [lastEntryTime_eq_none_iff_aux]
  simp

theorem filter_of_not_mem (person : PersonID) (l : List (PersonID × Time))
    (h : ∀ pt ∈ l, pt.1 ≠ person) :
    l.filter (fun pt => !(pt.1 == person)) = l := by
  induction l with
  | nil => rfl
  | cons pt rest ih =>
    have hpt : pt.1 ≠ person := h pt (List.mem_cons_self _ _)
    rw [List.filter_cons, if_pos (by simpa using hpt),
      ih fun q hq => h q (List.mem_cons_of_mem _ hq)]

theorem lastEntryTime_last_occurrence (person : PersonID) (t0 : Time)
    (l1 l2 : List (PersonID × Time)) (acc : Option Time)
    (h2 : ∀ pt ∈ l2, pt.1 ≠ person) :
    lastEntryTime person (l1 ++ (person, t0) :: l2) acc = some t0 := by
  have step : ∀ acc, lastEntryTime person ((person, t0) :: l2) acc = some t0 := by
    intro acc
    simp only [lastEntryTime, List.foldl, if_pos rfl]
    exact lastEntryTime_of_not_mem person l2 (some t0) h2
  induction l1 generalizing acc with
  | nil => exact step acc
  | cons pt rest ih =>
    simp only [List.cons_append, lastEntryTime, List.foldl]
    exact ih _

/-- `Cmd`: the closed tagged variant of schedulable pandemic commands. -/
inductive Cmd where
  | BecomeHospitalized (person : PersonID)
deriving DecidableEq

/-- `TripPhaseType` (the four cases the model inspects; everything else is
`Other`). -/
inductive TripPhaseType where
  | WaitingForBus (stop : BusStopID)
  | RidingBus (stop : BusStopID) (bus : CarID)
  | Walking
  | Other
deriving DecidableEq

/-- `Event` (the cases `handle_event` inspects; everything else is
`Other`).  `TripPhaseStarting` keeps the person and the phase, the only
fields read. -/
inductive Event where
  | PersonEntersBuilding (person : PersonID) (bldg : BuildingID)
  | PersonLeavesBuilding (person : PersonID) (bldg : BuildingID)
  | TripPhaseStarting (person : PersonID) (tpt : TripPhaseType)
  | Other
deriving DecidableEq

/-- The external `Scheduler`, seen through the only operation the model
uses: `push(time, Command::Pandemic(cmd))`.  It records the pushed
`(fire time, command)` pairs in push order. -/
structure Scheduler where
  pushes : List (Time × Cmd)
deriving DecidableEq

/-- `scheduler.push(t, Command::Pandemic(c))`. -/
def Scheduler.push (s : Scheduler) (t : Time) (c : Cmd) : Scheduler :=
  ⟨s.pushes ++ [(t, c)]⟩

/-- `PandemicModel`: the epidemic state machine. -/
structure PandemicModel where
  infected : Finset PersonID
  hospitalized : Finset PersonID
  bldgs : SharedSpace BuildingID
  bus_stops : SharedSpace BusStopID
  buses : SharedSpace CarID
  person_to_bus : PersonID → Option CarID
  rng : Rng
  initialized : Bool

/-- `PandemicModel::new(rng)`. -/
def PandemicModel.new (rng : Rng) : PandemicModel where
  infected := ∅
  hospitalized := ∅
  bldgs := SharedSpace.new BuildingID
  bus_stops := SharedSpace.new BusStopID
  buses := SharedSpace.new CarID
  person_to_bus := fun _ => none
  rng := rng
  initialized := false

/-- `PandemicModel::rand_duration(low, high)`: `assert!(high > low)`, then
one uniform draw from `[low, high)`. -/
def rand_duration (low high : Duration) (r : Rng) :
    Except PanicKind (Duration × Rng) :=
  if low < high then .ok (r.genRange low high) else .error .assertFail

/-- `PandemicModel::become_infected`: insert the person into `infected`;
with probability 0.1 push a `BecomeHospitalized` command to fire after a
random delay in `[1 hour, 3 hours)`. -/
def become_infected (now : Time) (person : PersonID)
    (st : PandemicModel) (sch : Scheduler) :
    Except PanicKind (PandemicModel × Scheduler) :=
  let st1 := { st with infected := insert person st.infected }
  let br := st1.rng.genBool10
  let st2 := { st1 with rng := br.2 }
  if br.1 then
    match rand_duration (Duration.hours 1) (Duration.hours 3) st2.rng with
    | .error e => .error e
    | .ok (d, r2) =>
      .ok ({ st2 with rng := r2 },
           sch.push (now + d) (Cmd.BecomeHospitalized person))
  else
    .ok (st2, sch)

/-- `PandemicModel::transmission`: for each `(other, overlap)` pair in
ledger order, if exactly one of the two is currently infected and the
overlap strictly exceeds one hour, draw `gen_bool(0.1)` and on success
infect the currently-uninfected member at time `now`. -/
def transmission (now : Time) (person : PersonID) :
    List (PersonID × Duration) → PandemicModel → Scheduler →
      Except PanicKind (PandemicModel × Scheduler)
  | [], st, sch => .ok (st, sch)
  | (other, overlap) :: rest, st, sch =>
    if decide (person ∈ st.infected) != decide (other ∈ st.infected) then
      if Duration.hours 1 < overlap then
        let br := st.rng.genBool10
        let st1 := { st with rng := br.2 }
        if br.1 then
          if person ∈ st1.infected then
            match become_infected now other st1 sch with
            | .error e => .error e
            | .ok (st2, sch2) => transmission now person rest st2 sch2
          else
            match become_infected now person st1 sch with
            | .error e => .error e
            | .ok (st2, sch2) => transmission now person rest st2 sch2
        else
          transmission now person rest st1 sch
      else
        transmission now person rest st sch
    else
      transmission now person rest st sch

/-- The seeding loop of `PandemicModel::initialize`: for each person of the
population in order, draw `gen_bool(0.1)` and on success infect them at
`START_OF_DAY`. -/
def seedPopulation (now : Time) :
    List PersonID → PandemicModel → Scheduler →
      Except PanicKind (PandemicModel × Scheduler)
  | [], st, sch => .ok (st, sch)
  | p :: rest, st, sch =>
    let br := st.rng.genBool10
    let st1 := { st with rng := br.2 }
    if br.1 then
      match become_infected now p st1 sch with
      | .error e => .error e
      | .ok (st2, sch2) => seedPopulation now rest st2 sch2
    else
      seedPopulation now rest st1 sch

/-- `PandemicModel::initialize`: `assert!(!self.initialized)`, set the
flag, then seed the initially infected fraction of the population. -/
def PandemicModel.initializeModel (st : PandemicModel)
    (population : List PersonID) (sch : Scheduler) :
    Except PanicKind (PandemicModel × Scheduler) :=
  if st.initialized then .error .assertFail
  else seedPopulation START_OF_DAY population
    { st with initialized := true } sch

/-- `PandemicModel::handle_event`: `assert!(self.initialized)`, then route
the event to the ledgers; leave events feed their overlap list to
`transmission`.  The building case tolerates an absent person; the
`RidingBus` and `Walking` cases `unwrap()` the leave result. -/
def handle_event (st : PandemicModel) (now : Time) (ev : Event)
    (sch : Scheduler) : Except PanicKind (PandemicModel × Scheduler) :=
  if st.initialized then
    match ev with
    | .PersonEntersBuilding person bldg =>
      .ok ({ st with
              bldgs := st.bldgs.person_enters_space now person bldg }, sch)
    | .PersonLeavesBuilding person bldg =>
      let r := st.bldgs.person_leaves_space now person bldg
      let st1 := { st with bldgs := r.2 }
      match r.1 with
      | some others => transmission now person others st1 sch
      | none => .ok (st1, sch)
    | .TripPhaseStarting person tpt =>
      match tpt with
      | .WaitingForBus stop =>
        .ok ({ st with
                bus_stops :=
                  st.bus_stops.person_enters_space now person stop }, sch)
      | .RidingBus stop bus =>
        let r := st.bus_stops.person_leaves_space now person stop
        let st1 := { st with bus_stops := r.2 }
        match r.1 with
        | none => .error .unwrapFail
        | some others =>
          match transmission now person others st1 sch with
          | .error e => .error e
          | .ok (st2, sch2) =>
            .ok ({ st2 with
                    buses := st2.buses.person_enters_space now person bus,
                    person_to_bus := fun q =>
                      if q = person then some bus
                      else st2.person_to_bus q }, sch2)
      | .Walking =>
        match st.person_to_bus person with
        | some car =>
          let st0 := { st with
                        person_to_bus := fun q =>
                          if q = person then none
                          else st.person_to_bus q }
          let r := st0.buses.person_leaves_space now person car
          let st1 := { st0 with buses := r.2 }
          match r.1 with
          | none => .error .unwrapFail
          | some others => transmission now person others st1 sch
        | none => .ok (st, sch)
      | .Other => .ok (st, sch)
    | .Other => .ok (st, sch)
  else .error .assertFail

/-- `PandemicModel::handle_cmd`: `assert!(self.initialized)`, then mark the
person hospitalized unconditionally. -/
def handle_cmd (st : PandemicModel) (_now : Time) (cmd : Cmd)
    (sch : Scheduler) : Except PanicKind (PandemicModel × Scheduler) :=
  if st.initialized then
    match cmd with
    | .BecomeHospitalized person =>
      .ok ({ st with hospitalized := insert person st.hospitalized }, sch)
  else .error .assertFail

/-- Closed form of `person_leaves_space`: the space's record is rewritten
to the filtered list (all entries of the person removed), and the result
is `none` when no entry was recorded, else the overlap list computed from
the last recorded entry time. -/
theorem person_leaves_space_eq {T : Type} [DecidableEq T]
    (ss : SharedSpace T) (now : Time) (person : PersonID) (space : T) :
    ss.person_leaves_space now person space =
      ((match lastEntryTime person (ss.occupants space) none with
        | none => none
        | some t0 =>
          some (((ss.occupants space).filter
              (fun pt => !(pt.1 == person))).map
            fun pt => (pt.1, now - max pt.2 t0))),
       ⟨fun s => if s = space then
           (ss.occupants space).filter (fun pt => !(pt.1 == person))
         else ss.occupants s⟩) := by
  unfold SharedSpace.person_leaves_space
  rw [retainLeave_eq]
  cases h : lastEntryTime person (ss.occupants space) none <;> simp [h]

theorem filter_unique_occurrence (person : PersonID) (t0 : Time)
    (l1 l2 : List (PersonID × Time))
    (h1 : ∀ pt ∈ l1, pt.1 ≠ person) (h2 : ∀ pt ∈ l2, pt.1 ≠ person) :
    (l1 ++ (person, t0) :: l2).filter (fun pt => !(pt.1 == person)) =
      l1 ++ l2 := by
  rw [List.filter_append, filter_of_not_mem person l1 h1, List.filter_cons]
  simp [filter_of_not_mem person l2 h2]

/-- Claim C2: when the leaving person has a (unique) recorded entry at
time `t0`, `person_leaves_space` removes it, returns exactly one pair per
remaining occupant with `overlap = now - max(occupant entry, t0)` (empty
for a sole occupant), leaves every other space untouched, and under the
precondition that `now` is at or after every recorded entry time every
returned duration is non-negative. -/
theorem claim_C2 {T : Type} [DecidableEq T] (ss : SharedSpace T)
    (now t0 : Time) (person : PersonID) (space : T)
    (l1 l2 : List (PersonID × Time))
    (hocc : ss.occupants space = l1 ++ (person, t0) :: l2)
    (h1 : ∀ pt ∈ l1, pt.1 ≠ person) (h2 : ∀ pt ∈ l2, pt.1 ≠ person) :
    (ss.person_leaves_space now person space).1 =
        some ((l1 ++ l2).map fun pt => (pt.1, now - max pt.2 t0))
    ∧ (ss.person_leaves_space now person space).2.occupants space = l1 ++ l2
    ∧ (∀ s, s ≠ space →
        (ss.person_leaves_space now person space).2.occupants s =
          ss.occupants s)
    ∧ ((∀ pt ∈ ss.occupants space, pt.2 ≤ now) →
        ∀ q ∈ ((l1 ++ l2).map fun pt => (pt.1, now - max pt.2 t0)), 0 ≤ q.2) := by
  rw [person_leaves_space_eq, hocc,
    lastEntryTime_last_occurrence person t0 l1 l2 none h2,
    filter_unique_occurrence person t0 l1 l2 h1 h2]
  refine ⟨rfl, by simp, fun s hs => by simp [hs], ?_⟩
  intro hle q hq
  rcases List.mem_map.1 hq with ⟨pt, hpt, rfl⟩
  have ht0 : t0 ≤ now :=
    hle (person, t0) (List.mem_append_right _ (List.mem_cons_self _ _))
  have hpt' : pt.2 ≤ now := by
    refine hle pt ?_
    rcases List.mem_append.1 hpt with h | h
    · exact List.mem_append_left _ h
    · exact List.mem_append_right _ (List.mem_cons_of_mem _ h)
  simpa using sub_nonneg.mpr (max_le hpt' ht0)

/-- Claim C2 witness: persons 1 and 2 both enter space 2 at hour 2;
person 1 leaves at hour 3, yielding exactly the pair `(2, 1 hour)`, and
the duration is non-negative. -/
theorem claim_C2_witness :
    ((((SharedSpace.new Nat).person_enters_space 7200 1 2).person_enters_space
        7200 2 2).person_leaves_space 10800 1 2).1 = some [(2, 3600)]
    ∧ ∀ q ∈ [((2 : PersonID), (3600 : Duration))], 0 ≤ q.2 := by
  have h := claim_C2
    (((SharedSpace.new Nat).person_enters_space 7200 1 2).person_enters_space
      7200 2 2) 10800 7200 1 2 [] [(2, 7200)] rfl (by simp) (by decide)
  refine ⟨by simpa using h.1, ?_⟩
  have h4 := h.2.2.2 (by decide)
  simpa using h4

/-- Claim C6: `person_leaves_space` returns `none` exactly when the person
has no recorded entry in the space; in that case every occupant record of
every space is unchanged; and a repeated leave for the same person and
space always reports `none`. -/
theorem claim_C6 {T : Type} [DecidableEq T] (ss : SharedSpace T)
    (now : Time) (person : PersonID) (space : T) :
    ((ss.person_leaves_space now person space).1 = none ↔
      ∀ pt ∈ ss.occupants space, pt.1 ≠ person)
    ∧ ((∀ pt ∈ ss.occupants space, pt.1 ≠ person) →
        ∀ s, (ss.person_leaves_space now person space).2.occupants s =
          ss.occupants s)
    ∧ (∀ now2 : Time,
        (((ss.person_leaves_space now person space).2).person_leaves_space
          now2 person space).1 = none) := by
  refine ⟨?_, ?_, ?_⟩
  · rw [person_leaves_space_eq]
    cases h : lastEntryTime person (ss.occupants space) none with
    | none =>
      simpa using (lastEntryTime_eq_none_iff person (ss.occupants space)).1 h
    | some t0 =>
      simp only [Option.some_ne_none, false_iff]
      intro hall
      rw [(lastEntryTime_eq_none_iff person (ss.occupants space)).2 hall] at h
      exact Option.noConfusion h
  · intro hall s
    rw [person_leaves_space_eq]
    by_cases hs : s = space
    · subst hs
      simp [filter_of_not_mem person (ss.occupants s) hall]
    · simp [hs]
  · intro now2
    have hocc2 : ((ss.person_leaves_space now person space).2).occupants space
        = (ss.occupants space).filter (fun pt => !(pt.1 == person)) := by
      simp [person_leaves_space_eq]
    have hnone : lastEntryTime person
        (((ss.person_leaves_space now person space).2).occupants space) none
        = none := by
      rw [hocc2]
      refine (lastEntryTime_eq_none_iff person _).2 ?_
      intro pt hpt
      simpa using (List.mem_filter.1 hpt).2
    rw [person_leaves_space_eq ((ss.person_leaves_space now person space).2)
      now2 person space, hnone]

/-- Claim C6 witness: person 3 never entered space 2, so their leave
reports `none`, changes no record, and a duplicate leave also reports
`none`. -/
theorem claim_C6_witness :
    ((((SharedSpace.new Nat).person_enters_space 7200 1 2).person_enters_space
        7200 2 2).person_leaves_space 10800 3 2).1 = none
    ∧ ((((SharedSpace.new Nat).person_enters_space 7200 1 2).person_enters_space
        7200 2 2).person_leaves_space 10800 3 2).2.occupants 2 =
        [(1, 7200), (2, 7200)] := by
  have h := claim_C6
    (((SharedSpace.new Nat).person_enters_space 7200 1 2).person_enters_space
      7200 2 2) 10800 3 2
  refine ⟨h.1.2 (by decide), ?_⟩
  have := h.2.1 (by decide) 2
  simpa using this

/-- Claim C10: with several concurrent entries of the same person (the
last at time `t0`), one `person_leaves_space` call removes all of them at
once, and the overlaps for the remaining occupants are computed from the
most recently recorded entry time `t0`. -/
theorem claim_C10 {T : Type} [DecidableEq T] (ss : SharedSpace T)
    (now t0 : Time) (person : PersonID) (space : T)
    (l1 l2 : List (PersonID × Time))
    (hocc : ss.occupants space = l1 ++ (person, t0) :: l2)
    (h2 : ∀ pt ∈ l2, pt.1 ≠ person) :
    (ss.person_leaves_space now person space).2.occupants space =
        l1.filter (fun pt => !(pt.1 == person)) ++ l2
    ∧ (ss.person_leaves_space now person space).1 =
        some ((l1.filter (fun pt => !(pt.1 == person)) ++ l2).map
          fun pt => (pt.1, now - max pt.2 t0)) := by
  have hfilter : (l1 ++ (person, t0) :: l2).filter
      (fun pt => !(pt.1 == person)) =
      l1.filter (fun pt => !(pt.1 == person)) ++ l2 := by
    rw [List.filter_append, List.filter_cons]
    simp [filter_of_not_mem person l2 h2]
  rw [person_leaves_space_eq, hocc,
    lastEntryTime_last_occurrence person t0 l1 l2 none h2, hfilter]
  exact ⟨by simp, rfl⟩

/-- Claim C10 witness: person 1 entered space 1 at time 0 and again at
hour 1, person 2 at time 0; person 1's leave at hour 3 removes both of
their entries and reports overlap `3h - max(0, 1h) = 2h` with person 2. -/
theorem claim_C10_witness :
    (((((SharedSpace.new Nat).person_enters_space 0 1 1).person_enters_space
        3600 1 1).person_enters_space 0 2 1).person_leaves_space
          10800 1 1).2.occupants 1 = [(2, 0)]
    ∧ (((((SharedSpace.new Nat).person_enters_space 0 1 1).person_enters_space
        3600 1 1).person_enters_space 0 2 1).person_leaves_space
          10800 1 1).1 = some [(2, 7200)] := by
  have h := claim_C10
    ((((SharedSpace.new Nat).person_enters_space 0 1 1).person_enters_space
      3600 1 1).person_enters_space 0 2 1) 10800 3600 1 1
    [(1, 0)] [(2, 0)] rfl (by decide)
  exact ⟨by simpa using h.1, by simpa using h.2⟩

/-- What one event-processing step may do to the epidemic state: grow the
infected set, leave `hospitalized` and `initialized` untouched, and append
to the scheduler only hospitalization commands for persons infected
afterwards. -/
def StepMono (st st' : PandemicModel) (sch sch' : Scheduler) : Prop :=
  st.infected ⊆ st'.infected
  ∧ st'.hospitalized = st.hospitalized
  ∧ st'.initialized = st.initialized
  ∧ ∃ tail, sch'.pushes = sch.pushes ++ tail
      ∧ ∀ x ∈ tail, ∃ p t, x = (t, Cmd.BecomeHospitalized p) ∧ p ∈ st'.infected

theorem stepMono_refl (st : PandemicModel) (sch : Scheduler) :
    StepMono st st sch sch :=
  ⟨Finset.Subset.refl _, rfl, rfl, [], by simp, by simp⟩

theorem stepMono_trans {st₁ st₂ st₃ : PandemicModel}
    {sch₁ sch₂ sch₃ : Scheduler}
    (h₁ : StepMono st₁ st₂ sch₁ sch₂) (h₂ : StepMono st₂ st₃ sch₂ sch₃) :
    StepMono st₁ st₃ sch₁ sch₃ := by
  obtain ⟨hi₁, hh₁, hz₁, t₁, hp₁, ht₁⟩ := h₁
  obtain ⟨hi₂, hh₂, hz₂, t₂, hp₂, ht₂⟩ := h₂
  refine ⟨hi₁.trans hi₂, hh₂.trans hh₁, hz₂.trans hz₁, t₁ ++ t₂, ?_, ?_⟩
  · rw [hp₂, hp₁, List.append_assoc]
  · intro x hx
    rcases List.mem_append.1 hx with hx | hx
    · obtain ⟨p, t, hxe, hpin⟩ := ht₁ x hx
      exact ⟨p, t, hxe, hi₂ hpin⟩
    · exact ht₂ x hx

/-- A state change that touches none of `infected`, `hospitalized`,
`initialized` and pushes nothing is a `StepMono`. -/
theorem stepMono_of_eq {st st' : PandemicModel} {sch : Scheduler}
    (hi : st'.infected = st.infected) (hh : st'.hospitalized = st.hospitalized)
    (hz : st'.initialized = st.initialized) :
    StepMono st st' sch sch :=
  ⟨by rw [hi], hh, hz, [], by simp, by simp⟩

theorem rand_duration_hours13 (r : Rng) :
    rand_duration (Duration.hours 1) (Duration.hours 3) r =
      .ok (r.genRange (Duration.hours 1) (Duration.hours 3)) := by
  simp [rand_duration, Duration.hours]

/-- Closed form of `become_infected`. -/
theorem become_infected_eq (now : Time) (person : PersonID)
    (st : PandemicModel) (sch : Scheduler) :
    become_infected now person st sch =
      (if (st.rng.genBool10).1 then
        .ok ({ st with
                infected := insert person st.infected
                rng := ((st.rng.genBool10).2.genRange (Duration.hours 1)
                  (Duration.hours 3)).2 },
             sch.push (now + ((st.rng.genBool10).2.genRange (Duration.hours 1)
                 (Duration.hours 3)).1)
               (Cmd.BecomeHospitalized person))
       else
        .ok ({ st with
                infected := insert person st.infected
                rng := (st.rng.genBool10).2 }, sch)) := by
  simp only [become_infected, rand_duration_hours13]

/-- `become_infected` never panics: it inserts the person into `infected`,
leaves everything but the generator untouched, and pushes at most one
`BecomeHospitalized` command for that person. -/
theorem become_infected_spec (now : Time) (person : PersonID)
    (st : PandemicModel) (sch : Scheduler) :
    ∃ st' sch', become_infected now person st sch = .ok (st', sch')
      ∧ st'.infected = insert person st.infected
      ∧ StepMono st st' sch sch' := by
  rw [become_infected_eq]
  by_cases hb : ((st.rng.genBool10).1 : Bool)
  · rw [if_pos hb]
    refine ⟨_, _, rfl, rfl, ?_⟩
    refine ⟨Finset.subset_insert _ _, rfl, rfl,
      [(now + ((st.rng.genBool10).2.genRange (Duration.hours 1)
          (Duration.hours 3)).1, Cmd.BecomeHospitalized person)], ?_, ?_⟩
    · simp [Scheduler.push]
    · intro x hx
      rcases List.mem_singleton.1 hx with rfl
      exact ⟨person, _, rfl, Finset.mem_insert_self _ _⟩
  · rw [if_neg hb]
    exact ⟨_, _, rfl, rfl, Finset.subset_insert _ _, rfl, rfl, [],
      by simp, by simp⟩

/-- `transmission` never panics and only performs `StepMono` changes. -/
theorem transmission_spec (now : Time) (person : PersonID) :
    ∀ (pairs : List (PersonID × Duration)) (st : PandemicModel)
      (sch : Scheduler),
      ∃ st' sch', transmission now person pairs st sch = .ok (st', sch')
        ∧ StepMono st st' sch sch' := by
  intro pairs
  induction pairs with
  | nil => intro st sch; exact ⟨st, sch, rfl, stepMono_refl st sch⟩
  | cons pair rest ih =>
    intro st sch
    obtain ⟨other, overlap⟩ := pair
    unfold transmission
    by_cases hmix :
        (decide (person ∈ st.infected) != decide (other ∈ st.infected)) = true
    · rw [if_pos hmix]
      by_cases hov : Duration.hours 1 < overlap
      · rw [if_pos hov]
        by_cases hb : ((Rng.genBool10 st.rng).1 : Bool)
        · rw [if_pos hb]
          set st1 : PandemicModel := { st with rng := (Rng.genBool10 st.rng).2 }
            with hst1
          have hmono1 : StepMono st st1 sch sch :=
            stepMono_of_eq rfl rfl rfl
          by_cases hp : person ∈ st1.infected
          · rw [if_pos hp]
            obtain ⟨st2, sch2, heq, _, hmono2⟩ :=
              become_infected_spec now other st1 sch
            rw [heq]
            obtain ⟨st3, sch3, heq3, hmono3⟩ := ih st2 sch2
            exact ⟨st3, sch3, heq3,
              stepMono_trans (stepMono_trans hmono1 hmono2) hmono3⟩
          · rw [if_neg hp]
            obtain ⟨st2, sch2, heq, _, hmono2⟩ :=
              become_infected_spec now person st1 sch
            rw [heq]
            obtain ⟨st3, sch3, heq3, hmono3⟩ := ih st2 sch2
            exact ⟨st3, sch3, heq3,
              stepMono_trans (stepMono_trans hmono1 hmono2) hmono3⟩
        · rw [if_neg hb]
          obtain ⟨st3, sch3, heq3, hmono3⟩ :=
            ih { st with rng := (Rng.genBool10 st.rng).2 } sch
          exact ⟨st3, sch3, heq3,
            stepMono_trans (stepMono_of_eq rfl rfl rfl) hmono3⟩
      · rw [if_neg hov]
        exact ih st sch
    · rw [if_neg hmix]
      exact ih st sch

/-- The initial seeding loop never panics and only performs `StepMono`
changes. -/
theorem seedPopulation_spec (now : Time) :
    ∀ (pop : List PersonID) (st : PandemicModel) (sch : Scheduler),
      ∃ st' sch', seedPopulation now pop st sch = .ok (st', sch')
        ∧ StepMono st st' sch sch' := by
  intro pop
  induction pop with
  | nil => intro st sch; exact ⟨st, sch, rfl, stepMono_refl st sch⟩
  | cons p rest ih =>
    intro st sch
    unfold seedPopulation
    by_cases hb : ((Rng.genBool10 st.rng).1 : Bool)
    · rw [if_pos hb]
      obtain ⟨st2, sch2, heq, _, hmono2⟩ :=
        become_infected_spec now p { st with rng := (Rng.genBool10 st.rng).2 } sch
      rw [heq]
      obtain ⟨st3, sch3, heq3, hmono3⟩ := ih st2 sch2
      exact ⟨st3, sch3, heq3,
        stepMono_trans (stepMono_trans (stepMono_of_eq rfl rfl rfl) hmono2) hmono3⟩
    · rw [if_neg hb]
      obtain ⟨st3, sch3, heq3, hmono3⟩ :=
        ih { st with rng := (Rng.genBool10 st.rng).2 } sch
      exact ⟨st3, sch3, heq3, stepMono_trans (stepMono_of_eq rfl rfl rfl) hmono3⟩

/-- Claim C7: whenever a person becomes infected at time `now`, then when
the `gen_bool(0.1)` hospitalization draw succeeds exactly one
`BecomeHospitalized` command carrying that person is pushed, with fire
time `now + d` for a delay `d` in `[1 hour, 3 hours)`; when the draw
fails nothing is scheduled. -/
theorem claim_C7 (now : Time) (person : PersonID) (st : PandemicModel)
    (sch : Scheduler) :
    (∀ r1 : Rng, st.rng.genBool10 = (true, r1) →
      ∃ d : Duration, Duration.hours 1 ≤ d ∧ d < Duration.hours 3 ∧
        become_infected now person st sch =
          .ok ({ st with
                  infected := insert person st.infected
                  rng := (r1.genRange (Duration.hours 1)
                    (Duration.hours 3)).2 },
               ⟨sch.pushes ++ [(now + d, Cmd.BecomeHospitalized person)]⟩))
    ∧ (∀ r1 : Rng, st.rng.genBool10 = (false, r1) →
        become_infected now person st sch =
          .ok ({ st with
                  infected := insert person st.infected
                  rng := r1 }, sch)) := by
  constructor
  · intro r1 hr
    refine ⟨(r1.genRange (Duration.hours 1) (Duration.hours 3)).1, ?_, ?_, ?_⟩
    · have h0 : (0 : Int) ≤ ((r1.seq r1.idx : Int)) %
          (Duration.hours 3 - Duration.hours 1) :=
        Int.emod_nonneg _ (by decide)
      simp only [Rng.genRange]
      linarith
    · have h1 : ((r1.seq r1.idx : Int)) %
          (Duration.hours 3 - Duration.hours 1) <
          Duration.hours 3 - Duration.hours 1 :=
        Int.emod_lt_of_pos _ (by decide)
      simp only [Rng.genRange]
      linarith
    · rw [become_infected_eq, hr]
      simp [Scheduler.push]
  · intro r1 hr
    rw [become_infected_eq, hr]
    simp

/-- Claim C7 witness: with a generator whose draws all succeed, infecting
person 5 at time 0 pushes exactly one hospitalization command, delayed by
one hour. -/
theorem claim_C7_witness :
    ∃ d : Duration, Duration.hours 1 ≤ d ∧ d < Duration.hours 3 ∧
      become_infected 0 5 (PandemicModel.new ⟨fun _ => 0, 0⟩) ⟨[]⟩ =
        .ok ({ PandemicModel.new ⟨fun _ => 0, 0⟩ with
                infected := insert 5 (PandemicModel.new ⟨fun _ => 0, 0⟩).infected
                rng := ((⟨fun _ => 0, 1⟩ : Rng).genRange (Duration.hours 1)
                  (Duration.hours 3)).2 },
             ⟨(⟨[]⟩ : Scheduler).pushes ++
               [(0 + d, Cmd.BecomeHospitalized 5)]⟩) :=
  (claim_C7 0 5 (PandemicModel.new ⟨fun _ => 0, 0⟩) ⟨[]⟩).1 ⟨fun _ => 0, 1⟩ rfl

/-- One-pair step equations for `transmission` (shared by the C3 proof). -/
theorem transmission_cons_skip_same (now : Time) (person other : PersonID)
    (overlap : Duration) (rest : List (PersonID × Duration))
    (st : PandemicModel) (sch : Scheduler)
    (h : decide (person ∈ st.infected) = decide (other ∈ st.infected)) :
    transmission now person ((other, overlap) :: rest) st sch =
      transmission now person rest st sch := by
  have : (decide (person ∈ st.infected) !=
      decide (other ∈ st.infected)) = false := by
    simp [bne, h]
  simp only [transmission, this]
  simp

/-- Claim C3: per `(other, overlap)` pair, transmission skips the pair
when both or neither of the two persons is infected (no random draw),
skips it when the overlap is at most one hour — one hour exactly is
excluded — again without drawing, and otherwise consumes exactly one
`gen_bool(0.1)` draw, on whose success the currently-uninfected member is
infected at the leave time `now`. -/
theorem claim_C3 (now : Time) (person other : PersonID) (overlap : Duration)
    (rest : List (PersonID × Duration)) (st : PandemicModel)
    (sch : Scheduler) :
    (decide (person ∈ st.infected) = decide (other ∈ st.infected) →
      transmission now person ((other, overlap) :: rest) st sch =
        transmission now person rest st sch)
    ∧ (overlap ≤ Duration.hours 1 →
        transmission now person ((other, overlap) :: rest) st sch =
          transmission now person rest st sch)
    ∧ (decide (person ∈ st.infected) ≠ decide (other ∈ st.infected) →
        Duration.hours 1 < overlap →
        ∀ r1 : Rng, st.rng.genBool10 = (false, r1) →
          transmission now person ((other, overlap) :: rest) st sch =
            transmission now person rest { st with rng := r1 } sch)
    ∧ (decide (person ∈ st.infected) ≠ decide (other ∈ st.infected) →
        Duration.hours 1 < overlap →
        ∀ r1 : Rng, st.rng.genBool10 = (true, r1) →
          transmission now person ((other, overlap) :: rest) st sch =
            (match (if person ∈ st.infected then
                become_infected now other { st with rng := r1 } sch
              else
                become_infected now person { st with rng := r1 } sch) with
             | .error e => .error e
             | .ok x => transmission now person rest x.1 x.2))
    ∧ (decide (person ∈ st.infected) ≠ decide (other ∈ st.infected) →
        Duration.hours 1 < overlap →
        (st.rng.genBool10).1 = true →
        ∀ (st' : PandemicModel) (sch' : Scheduler),
          transmission now person ((other, overlap) :: rest) st sch =
            .ok (st', sch') →
          (if person ∈ st.infected then other else person) ∈ st'.infected) := by
  refine ⟨transmission_cons_skip_same now person other overlap rest st sch,
    ?_, ?_, ?_, ?_⟩
  · intro hov
    by_cases hmix :
        (decide (person ∈ st.infected) != decide (other ∈ st.infected)) = true
    · simp only [transmission, hmix, if_true, if_neg (not_lt.mpr hov)]
    · simp only [transmission, hmix]
      simp
  · intro hmix hov r1 hr
    have hmix' : (decide (person ∈ st.infected) !=
        decide (other ∈ st.infected)) = true := by
      simpa [bne] using hmix
    simp only [transmission, hmix', if_true, if_pos hov, hr]
    simp
  · intro hmix hov r1 hr
    have hmix' : (decide (person ∈ st.infected) !=
        decide (other ∈ st.infected)) = true := by
      simpa [bne] using hmix
    simp only [transmission, hmix', if_true, if_pos hov, hr]
    by_cases hp : person ∈ st.infected
    · simp only [if_pos hp]
      cases become_infected now other { st with rng := r1 } sch with
      | error e => rfl
      | ok x => rfl
    · simp only [if_neg hp]
      cases become_infected now person { st with rng := r1 } sch with
      | error e => rfl
      | ok x => rfl
  · intro hmix hov hb st' sch' heq
    have hmix' : (decide (person ∈ st.infected) !=
        decide (other ∈ st.infected)) = true := by
      simpa [bne] using hmix
    have hr : st.rng.genBool10 = (true, (st.rng.genBool10).2) := by
      rw [← hb]
    set r1 := (st.rng.genBool10).2 with hr1
    simp only [transmission, hmix', if_true, if_pos hov, hr] at heq
    by_cases hp : person ∈ st.infected
    · rw [if_pos hp]
      obtain ⟨st2, sch2, heq2, hinf2, _⟩ :=
        become_infected_spec now other { st with rng := r1 } sch
      rw [if_pos hp, heq2] at heq
      obtain ⟨st3, sch3, heq3, hmono3⟩ := transmission_spec now person rest st2 sch2
      dsimp only at heq
      rw [heq3] at heq
      obtain ⟨h1, h2⟩ := Prod.mk.injEq _ _ _ _ ▸ Except.ok.inj heq
      subst h1
      exact hmono3.1 (hinf2 ▸ Finset.mem_insert_self other _)
    · rw [if_neg hp]
      obtain ⟨st2, sch2, heq2, hinf2, _⟩ :=
        become_infected_spec now person { st with rng := r1 } sch
      rw [if_neg hp, heq2] at heq
      obtain ⟨st3, sch3, heq3, hmono3⟩ := transmission_spec now person rest st2 sch2
      dsimp only at heq
      rw [heq3] at heq
      obtain ⟨h1, h2⟩ := Prod.mk.injEq _ _ _ _ ▸ Except.ok.inj heq
      subst h1
      exact hmono3.1 (hinf2 ▸ Finset.mem_insert_self person _)

/-- An all-zeros draw stream: every `gen_bool(0.1)` succeeds. -/
def rngZeros : Rng := ⟨fun _ => 0, 0⟩

/-- An all-ones draw stream: every `gen_bool(0.1)` fails. -/
def rngOnes : Rng := ⟨fun _ => 1, 0⟩

/-- A state whose only infected person is person 1 (used as concrete
input). -/
def stMixed : PandemicModel :=
  { PandemicModel.new rngZeros with infected := {1} }

/-- Claim C3 witness: a pair with overlap exactly one hour is skipped,
and for a mixed pair with overlap above one hour and a succeeding draw
the uninfected person 0 ends up infected. -/
theorem claim_C3_witness :
    (transmission 0 0 [(1, 3600)] stMixed ⟨[]⟩ =
      transmission 0 0 [] stMixed ⟨[]⟩)
    ∧ (if (0 : PersonID) ∈ stMixed.infected then (1 : PersonID) else 0) ∈
        ({ stMixed with
            infected := insert 0 stMixed.infected
            rng := ⟨fun _ => 0, 3⟩ } : PandemicModel).infected := by
  constructor
  · exact (claim_C3 0 0 1 3600 [] stMixed ⟨[]⟩).2.1 (by decide)
  · exact (claim_C3 0 0 1 7201 [] stMixed ⟨[]⟩).2.2.2.2 (by decide) (by decide)
      rfl
      { stMixed with
          infected := insert 0 stMixed.infected
          rng := ⟨fun _ => 0, 3⟩ }
      ⟨[(3600, Cmd.BecomeHospitalized 0)]⟩ rfl

/-- `handle_cmd` on an initialized model: unconditionally hospitalize. -/
theorem handle_cmd_eq (st : PandemicModel) (now : Time) (person : PersonID)
    (sch : Scheduler) (h : st.initialized = true) :
    handle_cmd st now (Cmd.BecomeHospitalized person) sch =
      .ok ({ st with hospitalized := insert person st.hospitalized }, sch) := by
  simp [handle_cmd, h]

/-- `handle_event` on an initialized model either succeeds with a
`StepMono` change or panics with an `unwrap` failure (never with an
`assert!` failure). -/
theorem handle_event_spec (st : PandemicModel) (now : Time) (ev : Event)
    (sch : Scheduler) (h : st.initialized = true) :
    (∃ st' sch', handle_event st now ev sch = .ok (st', sch')
      ∧ StepMono st st' sch sch')
    ∨ handle_event st now ev sch = .error .unwrapFail := by
  cases ev with
  | PersonEntersBuilding person bldg =>
    exact .inl ⟨{ st with
        bldgs := st.bldgs.person_enters_space now person bldg }, sch,
      by simp [handle_event, h], stepMono_of_eq rfl rfl rfl⟩
  | PersonLeavesBuilding person bldg =>
    cases hr : (st.bldgs.person_leaves_space now person bldg).1 with
    | none =>
      exact .inl ⟨{ st with
          bldgs := (st.bldgs.person_leaves_space now person bldg).2 }, sch,
        by simp [handle_event, h, hr], stepMono_of_eq rfl rfl rfl⟩
    | some others =>
      obtain ⟨st2, sch2, heq2, hmono2⟩ := transmission_spec now person others
        { st with bldgs := (st.bldgs.person_leaves_space now person bldg).2 }
        sch
      rw [h] at heq2
      exact .inl ⟨st2, sch2, by simp [handle_event, h, hr, heq2],
        stepMono_trans (stepMono_of_eq rfl rfl rfl) hmono2⟩
  | TripPhaseStarting person tpt =>
    cases tpt with
    | WaitingForBus stop =>
      exact .inl ⟨{ st with
          bus_stops := st.bus_stops.person_enters_space now person stop },
        sch, by simp [handle_event, h], stepMono_of_eq rfl rfl rfl⟩
    | RidingBus stop bus =>
      cases hr : (st.bus_stops.person_leaves_space now person stop).1 with
      | none => exact .inr (by simp [handle_event, h, hr])
      | some others =>
        obtain ⟨st2, sch2, heq2, hmono2⟩ := transmission_spec now person
          others
          { st with
              bus_stops := (st.bus_stops.person_leaves_space now person
                stop).2 } sch
        rw [h] at heq2
        refine .inl ⟨{ st2 with
            buses := st2.buses.person_enters_space now person bus
            person_to_bus := fun q =>
              if q = person then some bus else st2.person_to_bus q }, sch2,
          by simp [handle_event, h, hr, heq2], ?_⟩
        exact stepMono_trans
          (stepMono_trans (stepMono_of_eq rfl rfl rfl) hmono2)
          (stepMono_of_eq rfl rfl rfl)
    | Walking =>
      cases hb : st.person_to_bus person with
      | none =>
        exact .inl ⟨st, sch, by simp [handle_event, h, hb],
          stepMono_refl st sch⟩
      | some car =>
        cases hr : (st.buses.person_leaves_space now person car).1 with
        | none => exact .inr (by simp [handle_event, h, hb, hr])
        | some others =>
          obtain ⟨st2, sch2, heq2, hmono2⟩ := transmission_spec now person
            others
            { st with
                person_to_bus := fun q =>
                  if q = person then none else st.person_to_bus q
                buses := (st.buses.person_leaves_space now person car).2 }
            sch
          rw [h] at heq2
          exact .inl ⟨st2, sch2, by simp [handle_event, h, hb, hr, heq2],
            stepMono_trans (stepMono_of_eq rfl rfl rfl) hmono2⟩
    | Other =>
      exact .inl ⟨st, sch, by simp [handle_event, h], stepMono_refl st sch⟩
  | Other =>
    exact .inl ⟨st, sch, by simp [handle_event, h], stepMono_refl st sch⟩

/-- Claim C8: operating before initialization, double initialization, and
an empty or inverted delay range each abort with an assertion failure;
under the correct discipline (one initialization first, `high > low`)
no assertion fires: the first initialization succeeds, `handle_cmd`
always succeeds, `handle_event` never fails an assertion, and
`rand_duration` on a valid range succeeds. -/
theorem claim_C8 :
    (∀ (st : PandemicModel) (now : Time) (ev : Event) (sch : Scheduler),
      st.initialized = false →
        handle_event st now ev sch = .error .assertFail)
    ∧ (∀ (st : PandemicModel) (now : Time) (cmd : Cmd) (sch : Scheduler),
        st.initialized = false →
          handle_cmd st now cmd sch = .error .assertFail)
    ∧ (∀ (st : PandemicModel) (pop : List PersonID) (sch : Scheduler),
        st.initialized = true →
          PandemicModel.initializeModel st pop sch = .error .assertFail)
    ∧ (∀ (low high : Duration) (r : Rng), high ≤ low →
        rand_duration low high r = .error .assertFail)
    ∧ (∀ (r : Rng) (pop : List PersonID),
        ∃ st' sch',
          PandemicModel.initializeModel (PandemicModel.new r) pop ⟨[]⟩ =
            .ok (st', sch') ∧ st'.initialized = true)
    ∧ (∀ (st : PandemicModel) (now : Time) (ev : Event) (sch : Scheduler),
        st.initialized = true →
          handle_event st now ev sch ≠ Except.error PanicKind.assertFail)
    ∧ (∀ (st : PandemicModel) (now : Time) (cmd : Cmd) (sch : Scheduler),
        st.initialized = true →
          ∃ st', handle_cmd st now cmd sch = .ok (st', sch))
    ∧ (∀ (low high : Duration) (r : Rng), low < high →
        ∃ v, rand_duration low high r = .ok v) := by
  refine ⟨?_, ?_, ?_, ?_, ?_, ?_, ?_, ?_⟩
  · intro st now ev sch h
    simp [handle_event, h]
  · intro st now cmd sch h
    simp [handle_cmd, h]
  · intro st pop sch h
    simp [PandemicModel.initializeModel, h]
  · intro low high r h
    simp [rand_duration, not_lt.2 h]
  · intro r pop
    obtain ⟨st', sch', heq, hmono⟩ := seedPopulation_spec START_OF_DAY pop
      { PandemicModel.new r with initialized := true } ⟨[]⟩
    refine ⟨st', sch', ?_, ?_⟩
    · simpa [PandemicModel.initializeModel, PandemicModel.new] using heq
    · exact hmono.2.2.1
  · intro st now ev sch h
    rcases handle_event_spec st now ev sch h with ⟨st', sch', heq, _⟩ | heq
    · rw [heq]; exact fun hc => Except.noConfusion hc
    · rw [heq]
      intro hc
      exact PanicKind.noConfusion (Except.error.inj hc)
  · intro st now cmd sch h
    cases cmd with
    | BecomeHospitalized person =>
      exact ⟨_, handle_cmd_eq st now person sch h⟩
  · intro low high r h
    exact ⟨r.genRange low high, by simp [rand_duration, h]⟩

/-- Claim C8 witness: a freshly constructed (uninitialized) model rejects
an event with an assertion failure, and an inverted delay range aborts. -/
theorem claim_C8_witness :
    handle_event (PandemicModel.new rngOnes) 0 Event.Other ⟨[]⟩ =
      .error .assertFail
    ∧ rand_duration 3600 3600 rngOnes = .error .assertFail := by
  exact ⟨claim_C8.1 (PandemicModel.new rngOnes) 0 Event.Other ⟨[]⟩ rfl,
    claim_C8.2.2.2.1 3600 3600 rngOnes (by decide)⟩

/-- The epidemic-state invariant: hospitalized persons are infected, and
every hospitalization command ever pushed names an infected person. -/
def Inv (st : PandemicModel) (sch : Scheduler) : Prop :=
  st.hospitalized ⊆ st.infected
  ∧ ∀ (t : Time) (p : PersonID),
      (t, Cmd.BecomeHospitalized p) ∈ sch.pushes → p ∈ st.infected

theorem stepMono_inv {st st' : PandemicModel} {sch sch' : Scheduler}
    (hinv : Inv st sch) (hmono : StepMono st st' sch sch') : Inv st' sch' := by
  obtain ⟨hsub, hpush⟩ := hinv
  obtain ⟨hi, hh, _, tail, hp, ht⟩ := hmono
  constructor
  · rw [hh]
    exact hsub.trans hi
  · intro t p hmem
    rw [hp] at hmem
    rcases List.mem_append.1 hmem with hmem | hmem
    · exact hi (hpush t p hmem)
    · obtain ⟨q, t', hxe, hq⟩ := ht _ hmem
      obtain ⟨-, hq2⟩ := Prod.mk.injEq _ _ _ _ ▸ hxe
      rw [Cmd.BecomeHospitalized.inj hq2]
      exact hq

/-- The states reachable by the model: construction, one initialization,
any sequence of events, and deliveries of commands the model itself
pushed to the scheduler. -/
inductive Reachable : PandemicModel → Scheduler → Prop where
  | constructed (r : Rng) : Reachable (PandemicModel.new r) ⟨[]⟩
  | initStep {st st' : PandemicModel} {sch sch' : Scheduler}
      (pop : List PersonID) :
      Reachable st sch →
      PandemicModel.initializeModel st pop sch = .ok (st', sch') →
      Reachable st' sch'
  | eventStep {st st' : PandemicModel} {sch sch' : Scheduler}
      (now : Time) (ev : Event) :
      Reachable st sch →
      handle_event st now ev sch = .ok (st', sch') →
      Reachable st' sch'
  | cmdStep {st st' : PandemicModel} {sch sch' : Scheduler}
      (now t : Time) (c : Cmd) :
      Reachable st sch →
      (t, c) ∈ sch.pushes →
      handle_cmd st now c sch = .ok (st', sch') →
      Reachable st' sch'

theorem reachable_inv {st : PandemicModel} {sch : Scheduler}
    (h : Reachable st sch) : Inv st sch := by
  induction h with
  | constructed r =>
    exact ⟨by simp [PandemicModel.new], by simp⟩
  | initStep pop hreach heq ih =>
    rename_i st st' sch sch'
    by_cases hi : st.initialized = true
    · rw [PandemicModel.initializeModel, if_pos hi] at heq
      exact absurd heq (by simp)
    · rw [PandemicModel.initializeModel, if_neg hi] at heq
      obtain ⟨st₂, sch₂, heq₂, hmono₂⟩ := seedPopulation_spec START_OF_DAY pop
        { st with initialized := true } sch
      rw [heq₂] at heq
      obtain ⟨h1, h2⟩ := Prod.mk.injEq _ _ _ _ ▸ Except.ok.inj heq
      subst h1 h2
      exact stepMono_inv
        (show Inv { st with initialized := true } sch from ⟨ih.1, ih.2⟩) hmono₂
  | eventStep now ev hreach heq ih =>
    rename_i st st' sch sch'
    by_cases hi : st.initialized = true
    · rcases handle_event_spec st now ev sch hi with ⟨st₂, sch₂, heq₂, hmono₂⟩ | heq₂
      · rw [heq₂] at heq
        obtain ⟨h1, h2⟩ := Prod.mk.injEq _ _ _ _ ▸ Except.ok.inj heq
        subst h1 h2
        exact stepMono_inv ih hmono₂
      · rw [heq₂] at heq
        exact absurd heq (by simp)
    · have hfalse : st.initialized = false := by simpa using hi
      simp [handle_event, hfalse] at heq
  | cmdStep now t c hreach hmem heq ih =>
    rename_i st st' sch sch'
    by_cases hi : st.initialized = true
    · cases c with
      | BecomeHospitalized p =>
        rw [handle_cmd_eq st now p sch hi] at heq
        obtain ⟨h1, h2⟩ := Prod.mk.injEq _ _ _ _ ▸ Except.ok.inj heq
        subst h1 h2
        refine ⟨?_, ih.2⟩
        intro q hq
        rcases Finset.mem_insert.1 hq with rfl | hq
        · exact ih.2 t q hmem
        · exact ih.1 hq
    · have hfalse : st.initialized = false := by simpa using hi
      simp [handle_cmd, hfalse] at heq

/-- Claim C5: in every reachable state — construction, one
initialization, any event sequence, and deliveries only of commands the
model itself pushed — the hospitalized set is a subset of the infected
set, although `handle_cmd` hospitalizes unconditionally. -/
theorem claim_C5 (st : PandemicModel) (sch : Scheduler)
    (h : Reachable st sch) : st.hospitalized ⊆ st.infected :=
  (reachable_inv h).1

/-- Claim C5 witness: initialize with population `[5]` under the
all-zeros generator (infecting and scheduling hospitalization for
person 5), deliver the pushed command, and check the subset relation in
the resulting state. -/
theorem claim_C5_witness :
    ({ PandemicModel.new rngZeros with
        initialized := true
        infected := insert 5 (∅ : Finset PersonID)
        rng := ⟨fun _ => 0, 3⟩
        hospitalized :=
          insert 5 (∅ : Finset PersonID) } : PandemicModel).hospitalized ⊆
      ({ PandemicModel.new rngZeros with
          initialized := true
          infected := insert 5 (∅ : Finset PersonID)
          rng := ⟨fun _ => 0, 3⟩
          hospitalized :=
            insert 5 (∅ : Finset PersonID) } : PandemicModel).infected := by
  have h1 : Reachable (PandemicModel.new rngZeros) ⟨[]⟩ :=
    Reachable.constructed rngZeros
  have h2 : Reachable
      ({ PandemicModel.new rngZeros with
          initialized := true
          infected := insert 5 (∅ : Finset PersonID)
          rng := ⟨fun _ => 0, 3⟩ })
      ⟨[(3600, Cmd.BecomeHospitalized 5)]⟩ :=
    Reachable.initStep [5] h1 rfl
  have h3 : Reachable
      ({ PandemicModel.new rngZeros with
          initialized := true
          infected := insert 5 (∅ : Finset PersonID)
          rng := ⟨fun _ => 0, 3⟩
          hospitalized := insert 5 (∅ : Finset PersonID) })
      ⟨[(3600, Cmd.BecomeHospitalized 5)]⟩ :=
    Reachable.cmdStep 3600 3600 (Cmd.BecomeHospitalized 5) h2
      (List.mem_singleton.mpr rfl) rfl
  exact claim_C5 _ _ h3

/-- One input of a run: an event delivery or a scheduled command
delivery. -/
inductive Input where
  | ev (now : Time) (e : Event)
  | cmd (now : Time) (c : Cmd)
deriving DecidableEq

/-- Process a list of inputs in order, stopping at the first panic. -/
def runModel : List Input → PandemicModel → Scheduler →
    Except PanicKind (PandemicModel × Scheduler)
  | [], st, sch => .ok (st, sch)
  | .ev now e :: rest, st, sch =>
    match handle_event st now e sch with
    | .error e' => .error e'
    | .ok (st', sch') => runModel rest st' sch'
  | .cmd now c :: rest, st, sch =>
    match handle_cmd st now c sch with
    | .error e' => .error e'
    | .ok (st', sch') => runModel rest st' sch'

/-- A full run: construct the model from a seed, initialize on the
population, then process the inputs. -/
def runFromSeed (r : Rng) (pop : List PersonID) (inputs : List Input) :
    Except PanicKind (PandemicModel × Scheduler) :=
  match PandemicModel.initializeModel (PandemicModel.new r) pop ⟨[]⟩ with
  | .error e => .error e
  | .ok (st, sch) => runModel inputs st sch

/-- Claim C4: two runs from the same seed, population and delivery
sequence agree after every step — same full result, hence bit-identical
infected and hospitalized sets and an identical sequence of pushed
`(time, command)` pairs. -/
theorem claim_C4 (r₁ r₂ : Rng) (pop₁ pop₂ : List PersonID)
    (ins₁ ins₂ : List Input) (hr : r₁ = r₂) (hp : pop₁ = pop₂)
    (hi : ins₁ = ins₂) (n : Nat) :
    runFromSeed r₁ pop₁ (ins₁.take n) = runFromSeed r₂ pop₂ (ins₂.take n)
    ∧ ∀ (st₁ st₂ : PandemicModel) (sch₁ sch₂ : Scheduler),
        runFromSeed r₁ pop₁ (ins₁.take n) = .ok (st₁, sch₁) →
        runFromSeed r₂ pop₂ (ins₂.take n) = .ok (st₂, sch₂) →
        st₁.infected = st₂.infected ∧ st₁.hospitalized = st₂.hospitalized
          ∧ sch₁.pushes = sch₂.pushes := by
  subst hr hp hi
  refine ⟨rfl, ?_⟩
  intro st₁ st₂ sch₁ sch₂ h₁ h₂
  rw [h₁] at h₂
  obtain ⟨he, hs⟩ := Prod.mk.injEq _ _ _ _ ▸ Except.ok.inj h₂
  subst he hs
  exact ⟨rfl, rfl, rfl⟩

/-- Claim C4 witness: a concrete run (seeding person 5, then delivering
its hospitalization command) equals itself step by step. -/
theorem claim_C4_witness :
    runFromSeed rngZeros [5]
        ([Input.cmd 3600 (Cmd.BecomeHospitalized 5)].take 1) =
      runFromSeed rngZeros [5]
        ([Input.cmd 3600 (Cmd.BecomeHospitalized 5)].take 1) :=
  (claim_C4 rngZeros rngZeros [5] [5]
    [Input.cmd 3600 (Cmd.BecomeHospitalized 5)]
    [Input.cmd 3600 (Cmd.BecomeHospitalized 5)] rfl rfl rfl 1).1

/-- Modelled from the spec: the alternative pairwise rule in which every
pair of one leave-event batch is evaluated against the fixed pre-batch
infected set `inf0` instead of the immediately mutated one. -/
def transmissionPreBatch (inf0 : Finset PersonID) (now : Time)
    (person : PersonID) :
    List (PersonID × Duration) → PandemicModel → Scheduler →
      Except PanicKind (PandemicModel × Scheduler)
  | [], st, sch => .ok (st, sch)
  | (other, overlap) :: rest, st, sch =>
    if decide (person ∈ inf0) != decide (other ∈ inf0) then
      if Duration.hours 1 < overlap then
        let br := st.rng.genBool10
        let st1 := { st with rng := br.2 }
        if br.1 then
          if person ∈ inf0 then
            match become_infected now other st1 sch with
            | .error e => .error e
            | .ok (st2, sch2) => transmissionPreBatch inf0 now person rest st2 sch2
          else
            match become_infected now person st1 sch with
            | .error e => .error e
            | .ok (st2, sch2) => transmissionPreBatch inf0 now person rest st2 sch2
        else
          transmissionPreBatch inf0 now person rest st1 sch
      else
        transmissionPreBatch inf0 now person rest st sch
    else
      transmissionPreBatch inf0 now person rest st sch

/-- The infected set of a non-panicked result (`∅` after a panic). -/
def infectedOf (x : Except PanicKind (PandemicModel × Scheduler)) :
    Finset PersonID :=
  match x with
  | .ok (st, _) => st.infected
  | .error _ => ∅

/-- The ledger for the C9 scenario: persons 1, 0 and 2 enter space 5 at
time 0, in that insertion order. -/
def ssC9 : SharedSpace Nat :=
  (((SharedSpace.new Nat).person_enters_space 0 1 5).person_enters_space
    0 0 5).person_enters_space 0 2 5

/-- Claim C9: within one leave batch the infected set is mutated
immediately, so a later pair observes infections produced by earlier
pairs of the same batch, in the ledger's insertion order.  Concretely:
person 0 leaves space 5 at time 7201 with occupants `[1, 2]` (1 infected,
0 and 2 not, all draws succeeding); processing pair `(0,1)` first infects
0, which then makes pair `(0,2)` eligible and infects 2 — while
evaluating every pair against the pre-batch infected set leaves 2
uninfected. -/
theorem claim_C9 :
    (ssC9.person_leaves_space 7201 0 5).1 = some [(1, 7201), (2, 7201)]
    ∧ 2 ∈ infectedOf (transmission 7201 0 [(1, 7201), (2, 7201)]
        stMixed ⟨[]⟩)
    ∧ 2 ∉ infectedOf (transmissionPreBatch stMixed.infected 7201 0
        [(1, 7201), (2, 7201)] stMixed ⟨[]⟩)
    ∧ 0 ∈ infectedOf (transmissionPreBatch stMixed.infected 7201 0
        [(1, 7201), (2, 7201)] stMixed ⟨[]⟩) := by
  refine ⟨by decide, by decide, by decide, by decide⟩

/-- `person_leaves_space` reports `none` when the person has no recorded
entry. -/
theorem person_leaves_space_none_of {T : Type} [DecidableEq T]
    (ss : SharedSpace T) (now : Time) (person : PersonID) (space : T)
    (hall : ∀ pt ∈ ss.occupants space, pt.1 ≠ person) :
    (ss.person_leaves_space now person space).1 = none := by
  rw [person_leaves_space_eq]
  simp [(lastEntryTime_eq_none_iff person _).2 hall]

/-- Claim C1 counterexample: on an initialized model (reached by an empty
initialization), a `RidingBus` event for a person never recorded at the
stop does not drop the event — it panics via `unwrap`, aborting the
run. -/
theorem claim_C1_counterexample :
    PandemicModel.initializeModel (PandemicModel.new rngOnes) [] ⟨[]⟩ =
      .ok ({ PandemicModel.new rngOnes with initialized := true }, ⟨[]⟩)
    ∧ handle_event { PandemicModel.new rngOnes with initialized := true } 0
        (Event.TripPhaseStarting 7 (TripPhaseType.RidingBus 0 0)) ⟨[]⟩ =
        .error .unwrapFail :=
  ⟨rfl, rfl⟩

/-- Claim C1 as amended: only the building-leave case is recoverable —
`handle_event` drops a building leave for an unrecorded person and
continues; the bus-stop case (`RidingBus`) and the bus case (`Walking`
with a ride record but no bus-ledger entry) panic via `unwrap`. -/
theorem claim_C1_amended :
    (∀ (st : PandemicModel) (now : Time) (person : PersonID)
      (bldg : BuildingID) (sch : Scheduler),
      st.initialized = true →
      (∀ pt ∈ st.bldgs.occupants bldg, pt.1 ≠ person) →
      handle_event st now (Event.PersonLeavesBuilding person bldg) sch =
        .ok ({ st with
            bldgs := (st.bldgs.person_leaves_space now person bldg).2 },
          sch))
    ∧ (∀ (st : PandemicModel) (now : Time) (person : PersonID)
        (stop : BusStopID) (bus : CarID) (sch : Scheduler),
        st.initialized = true →
        (∀ pt ∈ st.bus_stops.occupants stop, pt.1 ≠ person) →
        handle_event st now
          (Event.TripPhaseStarting person (TripPhaseType.RidingBus stop bus))
          sch = .error .unwrapFail)
    ∧ (∀ (st : PandemicModel) (now : Time) (person : PersonID)
        (car : CarID) (sch : Scheduler),
        st.initialized = true →
        st.person_to_bus person = some car →
        (∀ pt ∈ st.buses.occupants car, pt.1 ≠ person) →
        handle_event st now
          (Event.TripPhaseStarting person TripPhaseType.Walking) sch =
          .error .unwrapFail) := by
  refine ⟨?_, ?_, ?_⟩
  · intro st now person bldg sch h hall
    have hr := person_leaves_space_none_of st.bldgs now person bldg hall
    simp [handle_event, h, hr]
  · intro st now person stop bus sch h hall
    have hr := person_leaves_space_none_of st.bus_stops now person stop hall
    simp [handle_event, h, hr]
  · intro st now person car sch h hcar hall
    have hr := person_leaves_space_none_of st.buses now person car hall
    simp [handle_event, h, hcar, hr]

/-- Claim C1 amended witness: on a concrete initialized model, a building
leave for an absent person is dropped (processing continues) while the
bus-stop leave for an absent person aborts. -/
theorem claim_C1_amended_witness :
    handle_event { PandemicModel.new rngOnes with initialized := true } 0
        (Event.PersonLeavesBuilding 7 3) ⟨[]⟩ =
      .ok ({ { PandemicModel.new rngOnes with initialized := true } with
          bldgs :=
            (({ PandemicModel.new rngOnes with
                initialized := true } : PandemicModel).bldgs.person_leaves_space
              0 7 3).2 }, ⟨[]⟩)
    ∧ handle_event { PandemicModel.new rngOnes with initialized := true } 0
        (Event.TripPhaseStarting 7 (TripPhaseType.RidingBus 0 0)) ⟨[]⟩ =
        .error .unwrapFail := by
  constructor
  · exact claim_C1_amended.1
      { PandemicModel.new rngOnes with initialized := true } 0 7 3 ⟨[]⟩ rfl
      (by simp [PandemicModel.new, SharedSpace.new])
  · exact claim_C1_amended.2.1
      { PandemicModel.new rngOnes with initialized := true } 0 7 0 0 ⟨[]⟩ rfl
      (by simp [PandemicModel.new, SharedSpace.new])

end Pandemic
